import Mathlib

/-!
# Verification of the infst offset-discovery and memory-tracking core

Shallow embedding, in Lean 4, of the data model and algorithms of the
`dqn/infst` repository (crates `reflux-core` and `infst`), together with
proofs about them.  Each definition mirrors one Rust item of the source;
machine integers are modelled as `Nat`/`Int` with explicit wrapping
(`% 2^64`) where the source uses wrapping operations, fallible memory
reads are modelled as `Option`-valued functions, and fixed-size arrays
as lists bundled with a length invariant.
-/

namespace Infst

/-! ## Game enums (crates/reflux-core/src/game/enums.rs) -/

/-- Embeds `Difficulty` (enums.rs lines 19-40), `#[repr(u8)]` with discriminants 0..=9. -/
inductive Difficulty where
  | SpB | SpN | SpH | SpA | SpL
  | DpB | DpN | DpH | DpA | DpL
  deriving DecidableEq, Repr

/-- The `as usize` cast of a `Difficulty` value: its `repr(u8)` discriminant. -/
def difficultyIndex : Difficulty → Nat
  | .SpB => 0 | .SpN => 1 | .SpH => 2 | .SpA => 3 | .SpL => 4
  | .DpB => 5 | .DpN => 6 | .DpH => 7 | .DpA => 8 | .DpL => 9

/-- Embeds `Lamp` (enums.rs lines 102-122), discriminants 0..=8 in clear-quality order. -/
inductive Lamp where
  | NoPlay | Failed | AssistClear | EasyClear | Clear
  | HardClear | ExHardClear | FullCombo | Pfc
  deriving DecidableEq, Repr

/-- Embeds `Grade` (enums.rs lines 165-179), discriminants 0..=8. -/
inductive Grade where
  | NoPlay | F | E | D | C | B | A | Aa | Aaa
  deriving DecidableEq, Repr

/-- Embeds `Grade::from_score_ratio` (enums.rs lines 186-204).

The source computes over `f64`; the embedding uses `ℚ`.  This is exact
for every ratio `ex_score / (2 * total_notes)` that the program feeds
into the function: both `ex_score` and `2 * total_notes` are `u32`-sized,
rounding-to-nearest is monotone, and the closest rational with a
denominator below `2^34` to any threshold `k/9` other than `k/9` itself
is at distance at least `1/(9 * 2^34)`, which is far larger than one ulp
of an `f64` near `k/9`; hence the `f64` comparisons against the rounded
constants `k/9` decide exactly the same way as the rational comparisons
modelled here. -/
def gradeFromScoreRat (ratio : ℚ) : Grade :=
  if ratio ≥ 8/9 then .Aaa
  else if ratio ≥ 7/9 then .Aa
  else if ratio ≥ 6/9 then .A
  else if ratio ≥ 5/9 then .B
  else if ratio ≥ 4/9 then .C
  else if ratio ≥ 3/9 then .D
  else if ratio ≥ 2/9 then .E
  else .F

/-- Embeds `PlayData::calculate_grade` (crates/reflux-core/src/game/play_data.rs
lines 34-41): `max_ex = total_notes * 2`, `ratio = ex_score / max_ex`. -/
def calculateGrade (exScore totalNotes : Nat) : Grade :=
  if totalNotes = 0 then .F
  else
    gradeFromScoreRat ((exScore : ℚ) / ((totalNotes * 2 : Nat) : ℚ))

/-- The grade determined by the precise ratio `ex_score / (2 * total_notes)`
with inclusive lower bounds at `k/9` (k = 2..8) and `Grade::F` when
`total_notes` is 0 - the specification's wording of the grade table,
phrased with exact integer cross-multiplication, to be compared with
`calculateGrade` (the embedding of the code). -/
def gradePreciseSpec (exScore totalNotes : Nat) : Grade :=
  if totalNotes = 0 then .F
  else if 8 * (2 * totalNotes) ≤ 9 * exScore then .Aaa
  else if 7 * (2 * totalNotes) ≤ 9 * exScore then .Aa
  else if 6 * (2 * totalNotes) ≤ 9 * exScore then .A
  else if 5 * (2 * totalNotes) ≤ 9 * exScore then .B
  else if 4 * (2 * totalNotes) ≤ 9 * exScore then .C
  else if 3 * (2 * totalNotes) ≤ 9 * exScore then .D
  else if 2 * (2 * totalNotes) ≤ 9 * exScore then .E
  else .F

end Infst

namespace Infst

/-! ## Judge and emitted PlayData (game/judge.rs, game/play_data.rs) -/

/-- Embeds `PlayType` (enums.rs lines 214-222). -/
inductive PlayType where
  | P1 | P2 | Dp
  deriving DecidableEq, Repr

/-- Embeds `Judge` (crates/reflux-core/src/game/judge.rs lines 7-18). -/
structure Judge where
  playType : PlayType
  pgreat : Nat
  great : Nat
  good : Nat
  bad : Nat
  poor : Nat
  fast : Nat
  slow : Nat
  comboBreak : Nat
  prematureEnd : Bool
  deriving DecidableEq, Repr

/-- Embeds `Judge::is_pfc` (judge.rs lines 31-33). -/
def Judge.isPfc (j : Judge) : Bool :=
  j.good == 0 && j.bad == 0 && j.poor == 0

/-- Embeds `Judge::ex_score` (judge.rs lines 36-38): `pgreat * 2 + great`. -/
def Judge.exScore (j : Judge) : Nat :=
  j.pgreat * 2 + j.great

/-- Embeds `Judge::miss_count` (judge.rs lines 41-43): `bad + poor`. -/
def Judge.missCountJ (j : Judge) : Nat :=
  j.bad + j.poor

/-- Embeds `PlayData` (crates/reflux-core/src/game/play_data.rs lines 8-19).
The `timestamp`, `chart` and `settings` fields are opaque to the claims
verified here and are omitted from the embedding. -/
structure PlayData where
  exScore : Nat
  gauge : Nat
  grade : Grade
  lamp : Lamp
  judge : Judge
  dataAvailable : Bool
  deriving DecidableEq, Repr

/-- Embeds `PlayData::miss_count` (play_data.rs lines 29-31). -/
def PlayData.missCount (p : PlayData) : Nat :=
  p.judge.missCountJ

/-- Embeds `PlayData::upgrade_lamp_if_pfc` (play_data.rs lines 44-48). -/
def upgradeLampIfPfc (p : PlayData) : PlayData :=
  if p.judge.isPfc && p.lamp == Lamp.FullCombo then
    { p with lamp := Lamp.Pfc }
  else
    p

/-- Modelled from the spec: the tracker-loop emission step (spec section 4.7,
not present under `src/`): on the `Playing -> ResultScreen` transition the
loop constructs an emitted `PlayData` record from the harvested judge
counts, the lamp read from memory, and the chart's note count - "compute
EX, grade, upgrade FC->PFC when judge has zero good/bad/poor" - using the
source functions `Judge::ex_score`, `PlayData::calculate_grade` and
`PlayData::upgrade_lamp_if_pfc` embedded above. -/
def emitPlayData (j : Judge) (lampFromMemory : Lamp) (totalNotes gauge : Nat)
    (dataAvail : Bool) : PlayData :=
  upgradeLampIfPfc
    { exScore := j.exScore
      gauge := gauge
      grade := calculateGrade j.exScore totalNotes
      lamp := lampFromMemory
      judge := j
      dataAvailable := dataAvail }

/-! ## ScoreData (crates/reflux-core/src/storage/score_map.rs lines 4-35)

`ScoreData` holds `lamp: [Lamp; 9]`, `score: [u32; 9]`,
`miss_count: [Option<u32>; 9]`.  The fixed-size arrays are embedded as
lists bundled with their length; Rust's panicking index operation
`a[i]` is embedded as `Option`-valued lookup, `none` standing for the
index-out-of-bounds panic. -/

structure ScoreData where
  songId : String
  lamp : List Lamp
  score : List Nat
  missCount : List (Option Nat)
  lampLen : lamp.length = 9
  scoreLen : score.length = 9
  missCountLen : missCount.length = 9

/-- Embeds `ScoreData::new` / `Default` (score_map.rs lines 13-18): all-default arrays. -/
def ScoreData.mkNew (songId : String) : ScoreData where
  songId := songId
  lamp := List.replicate 9 Lamp.NoPlay
  score := List.replicate 9 0
  missCount := List.replicate 9 none
  lampLen := rfl
  scoreLen := rfl
  missCountLen := rfl

/-- Embeds `ScoreData::get_lamp` (score_map.rs lines 20-22):
`self.lamp[difficulty as usize]`; `none` models the panic on an
out-of-bounds index. -/
def ScoreData.getLamp (s : ScoreData) (d : Difficulty) : Option Lamp :=
  s.lamp.get? (difficultyIndex d)

/-- Embeds `ScoreData::get_score` (score_map.rs lines 24-26). -/
def ScoreData.getScore (s : ScoreData) (d : Difficulty) : Option Nat :=
  s.score.get? (difficultyIndex d)

/-- Embeds `ScoreData::set_lamp` (score_map.rs lines 28-30):
`self.lamp[difficulty as usize] = lamp`; `none` models the panic on an
out-of-bounds index. -/
def ScoreData.setLamp (s : ScoreData) (d : Difficulty) (l : Lamp) :
    Option ScoreData :=
  if h : difficultyIndex d < s.lamp.length then
    some { s with
      lamp := s.lamp.set (difficultyIndex d) l
      lampLen := by rw [List.length_set]; exact s.lampLen }
  else
    none

/-- Embeds `ScoreData::set_score` (score_map.rs lines 32-34). -/
def ScoreData.setScore (s : ScoreData) (d : Difficulty) (v : Nat) :
    Option ScoreData :=
  if h : difficultyIndex d < s.score.length then
    some { s with
      score := s.score.set (difficultyIndex d) v
      scoreLen := by rw [List.length_set]; exact s.scoreLen }
  else
    none

/-! ## Game-state detector (crates/reflux-core/src/game/state.rs) -/

/-- Embeds `GameState` (enums.rs lines 259-265). -/
inductive GameState where
  | Unknown | SongSelect | Playing | ResultScreen
  deriving DecidableEq, Repr

/-- Embeds `GameStateDetector::detect` (state.rs lines 21-47).  The detector's
only state is `last_state`; `detect` returns the pair
(emitted state, updated `last_state`). -/
def detect (lastState : GameState)
    (judgeMarker54 judgeMarker55 songSelectMarker : Int) :
    GameState × GameState :=
  if judgeMarker54 ≠ 0 ∧ judgeMarker55 ≠ 0 then
    (GameState.Playing, GameState.Playing)
  else if lastState = GameState.SongSelect then
    (GameState.SongSelect, lastState)
  else if songSelectMarker = 1 then
    (GameState.SongSelect, GameState.SongSelect)
  else
    (GameState.ResultScreen, GameState.ResultScreen)

/-- Feeding a tick sequence to a detector: returns the list of emitted
states (`detect` called once per tick, threading `last_state`). -/
def detectTrace (lastState : GameState) :
    List (Int × Int × Int) → List GameState
  | [] => []
  | (m54, m55, ssm) :: rest =>
    let r := detect lastState m54 m55 ssm
    r.1 :: detectTrace r.2 rest

/-! ## Memory model for the validators

The `ReadMemory` collaborator exposes `read_i32(addr) -> Result<i32>`.
For the validators, which only issue `read_i32`, memory is modelled as a
function from byte address to `Option Int` (`none` = read error); a
returned `Int` is the i32 value at that address. -/

/-- A 32-bit read, `none` on error. -/
def MemI32 : Type := Nat → Option Int

/-- Embeds `reader.read_i32(a).unwrap_or(-1)`. -/
def readOr (mem : MemI32) (a : Nat) : Int :=
  (mem a).getD (-1)

/-- Embeds `RangeInclusive::contains`: `(lo..=hi).contains(&v)`. -/
def containsI (lo hi v : Int) : Bool :=
  decide (lo ≤ v) && decide (v ≤ hi)

/-- Embeds `u64::wrapping_sub`. -/
def wsub64 (a b : Nat) : Nat :=
  ((((a : Int) - (b : Int))) % (2 ^ 64)).toNat

/-- Modelled from the spec: `MIN_SONG_ID` (used by the validators; its
defining `constants` module of the `infst` crate is not under `src/`).
Spec section 4.2: `song_id ∈ [1000, 90000]`. -/
def MIN_SONG_ID : Int := 1000

/-- Modelled from the spec: `MAX_SONG_ID`, see `MIN_SONG_ID`. -/
def MAX_SONG_ID : Int := 90000

/-- Embeds `validate_play_data_address`
(crates/infst/src/offset/searcher/validation/play.rs lines 54-72).
Reads `song_id` at `addr + play::SONG_ID` (0), `difficulty` at
`addr + play::DIFFICULTY` (4) and `lamp` at `addr + play::LAMP` (24),
each defaulting to `-1` on a read error; rejects the all-zero triple,
otherwise requires `song_id ∈ [MIN_SONG_ID, MAX_SONG_ID]`,
`difficulty ∈ [0, 9]`, `lamp ∈ [0, 7]`. -/
def validatePlayDataAddress (mem : MemI32) (addr : Nat) : Bool :=
  let songId := readOr mem (addr + 0)
  let difficulty := readOr mem (addr + 4)
  let lamp := readOr mem (addr + 24)
  if songId == 0 && difficulty == 0 && lamp == 0 then
    false
  else
    containsI MIN_SONG_ID MAX_SONG_ID songId
      && containsI 0 9 difficulty
      && containsI 0 7 lamp

/-- Embeds `OffsetSearcher::validate_play_data_address`
(crates/reflux-core/src/offset/searcher/mod.rs lines 2004-2022), the
reflux-core variant: reads words 0..3 (`song_id`, `difficulty`,
`ex_score`, `miss_count`), accepts the all-zero quadruple, otherwise
requires the four domain ranges.  (The `Result` wrapper is always `Ok`.) -/
def refluxValidatePlayData (mem : MemI32) (addr : Nat) : Bool :=
  let songId := readOr mem addr
  let difficulty := readOr mem (addr + 4)
  let exScore := readOr mem (addr + 8)
  let missCount := readOr mem (addr + 12)
  if songId == 0 && difficulty == 0 && exScore == 0 && missCount == 0 then
    true
  else
    containsI MIN_SONG_ID MAX_SONG_ID songId
      && containsI 0 9 difficulty
      && containsI 0 10000 exScore
      && containsI 0 3000 missCount

/-- Embeds `is_power_of_two` (crates/reflux-core/src/offset/searcher/utils.rs):
`n > 0 && (n & (n - 1)) == 0` on `u32`. -/
def isPowerOfTwo (n : Nat) : Bool :=
  decide (0 < n) && (n &&& (n - 1)) == 0

/-- Embeds `OffsetSearcher::validate_current_song_address` (mod.rs lines
2025-2053): zero `song_id`/`difficulty` accepted; otherwise
`song_id ∈ [1000, 50000]`, not a power of two, `difficulty ∈ [0, 9]`,
and the third word (read only on this path) in `[0, 10000]`. -/
def validateCurrentSongAddress (mem : MemI32) (addr : Nat) : Bool :=
  let songId := readOr mem addr
  let difficulty := readOr mem (addr + 4)
  if songId == 0 && difficulty == 0 then
    true
  else if !containsI 1000 50000 songId then
    false
  else if isPowerOfTwo songId.toNat then
    false
  else if !containsI 0 9 difficulty then
    false
  else
    let field3 := readOr mem (addr + 8)
    containsI 0 10000 field3

/-- Embeds `settings::SONG_SELECT_MARKER` (crates/reflux-core/src/memory/layout.rs
line 66): `WORD * 6`. -/
def SONG_SELECT_MARKER : Nat := 4 * 6

/-- Embeds `OffsetSearcher::validate_play_settings_at` (mod.rs lines 1963-2001;
textually identical to `validate_play_settings_at` in
crates/infst/src/offset/searcher/validation/play.rs lines 16-42):
five `?`-propagated reads, range checks, then the song-select marker at
`addr.wrapping_sub(SONG_SELECT_MARKER)` must be 0 or 1. -/
def validatePlaySettingsAt (mem : MemI32) (addr : Nat) : Option Nat := do
  let style ← mem addr
  let gauge ← mem (addr + 4)
  let assist ← mem (addr + 8)
  let flip ← mem (addr + 12)
  let range ← mem (addr + 16)
  if !containsI 0 6 style
      || !containsI 0 4 gauge
      || !containsI 0 5 assist
      || !containsI 0 1 flip
      || !containsI 0 5 range then
    none
  else do
    let songSelectMarker ← mem (wsub64 addr SONG_SELECT_MARKER)
    if !containsI 0 1 songSelectMarker then
      none
    else
      some addr

/-- Embeds `judge::STATE_MARKER_1` (layout.rs line 40): `WORD * 54`. -/
def STATE_MARKER_1 : Nat := 4 * 54

/-- Embeds `judge::STATE_MARKER_2` (layout.rs line 41): `WORD * 55`. -/
def STATE_MARKER_2 : Nat := 4 * 55

/-- Embeds `OffsetSearcher::validate_judge_data_candidate` (mod.rs lines
1371-1386): address 4-aligned and the two state markers in `[0, 100]`,
reads defaulting to `-1` on error. -/
def validateJudgeDataCandidate (mem : MemI32) (addr : Nat) : Bool :=
  if !(addr % 4 == 0) then
    false
  else
    let marker1 := readOr mem (addr + STATE_MARKER_1)
    let marker2 := readOr mem (addr + STATE_MARKER_2)
    containsI 0 100 marker1 && containsI 0 100 marker2

/-! ## Offsets collection and the relative-distance gate
(crates/reflux-core/src/offset/collection.rs,
crates/reflux-core/src/offset/searcher/mod.rs lines 188-314,
crates/reflux-core/src/offset/searcher/constants.rs) -/

/-- Embeds `OffsetsCollection` (collection.rs): seven absolute `u64` addresses
plus a version string. -/
structure OffsetsCollection where
  version : String
  songList : Nat
  dataMap : Nat
  judgeData : Nat
  playData : Nat
  playSettings : Nat
  unlockData : Nat
  currentSong : Nat
  deriving DecidableEq, Repr

/-- Embeds `JUDGE_TO_PLAY_SETTINGS` (constants.rs line 48). -/
def JUDGE_TO_PLAY_SETTINGS : Nat := 0x2ACE00

/-- Embeds `PLAY_SETTINGS_SEARCH_RANGE` (constants.rs line 53). -/
def PLAY_SETTINGS_SEARCH_RANGE : Nat := 0x2000

/-- Embeds `JUDGE_TO_SONG_LIST` (constants.rs line 58). -/
def JUDGE_TO_SONG_LIST : Nat := 0x94E000

/-- Modelled from the spec: `JUDGE_DATA_SEARCH_RANGE` (used at mod.rs
lines 286 and 1325 but not defined under `src/`); spec sections 4.4
("a ±64 KiB window") and the relative-distance table ("±0x10000"). -/
def JUDGE_DATA_SEARCH_RANGE : Nat := 0x10000

/-- Embeds `PLAY_SETTINGS_TO_PLAY_DATA` (constants.rs line 68). -/
def PLAY_SETTINGS_TO_PLAY_DATA : Nat := 0x2B0

/-- Embeds `PLAY_DATA_SEARCH_RANGE` (constants.rs line 73). -/
def PLAY_DATA_SEARCH_RANGE : Nat := 0x100

/-- Embeds `JUDGE_TO_CURRENT_SONG` (constants.rs line 78). -/
def JUDGE_TO_CURRENT_SONG : Nat := 0x1E4

/-- Embeds `CURRENT_SONG_SEARCH_RANGE` (constants.rs line 83). -/
def CURRENT_SONG_SEARCH_RANGE : Nat := 0x100

/-- The `within_range` closure (mod.rs lines 268-274). -/
def withinRange (actual expected range : Nat) : Bool :=
  if expected ≤ actual then
    decide (actual - expected ≤ range)
  else
    decide (expected - actual ≤ range)

/-- The relative-distance gate of `validate_signature_offsets`
(mod.rs lines 267-311): the four `wrapping_sub` distances, each checked
against its expected value and tolerance, in source order. -/
def distanceGate (o : OffsetsCollection) : Bool :=
  withinRange (wsub64 o.judgeData o.playSettings)
      JUDGE_TO_PLAY_SETTINGS PLAY_SETTINGS_SEARCH_RANGE
    && withinRange (wsub64 o.songList o.judgeData)
      JUDGE_TO_SONG_LIST JUDGE_DATA_SEARCH_RANGE
    && withinRange (wsub64 o.playData o.playSettings)
      PLAY_SETTINGS_TO_PLAY_DATA PLAY_DATA_SEARCH_RANGE
    && withinRange (wsub64 o.currentSong o.judgeData)
      JUDGE_TO_CURRENT_SONG CURRENT_SONG_SEARCH_RANGE

/-- Embeds `OffsetSearcher::validate_signature_offsets` (mod.rs lines 188-314).
The function first rejects collections with a zero required offset, then
runs the per-structure memory validators (song-list counting, judge
marker check, play-settings, play-data, current-song, and the optional
data-map and unlock-data checks), and finally the relative-distance
gate.  The memory-dependent middle block is abstracted into the
`structuralOk` argument - the claims proved here concern only the zero
checks and the distance gate, and `validate_signature_offsets` returns
`true` only if every part is satisfied. -/
def validateSignatureOffsets (structuralOk : Bool) (o : OffsetsCollection) : Bool :=
  if o.songList == 0 then false
  else if o.judgeData == 0 then false
  else if o.playSettings == 0 then false
  else if o.playData == 0 then false
  else if o.currentSong == 0 then false
  else if !structuralOk then false
  else distanceGate o

/-! ## Signature scanner
(crates/reflux-core/src/offset/searcher/mod.rs lines 1388-1518,
crates/reflux-core/src/offset/signature.rs)

For the scanner, memory is byte-granular.  The chunked code scan is
stated for memories on which every read succeeds (a total byte
function); the displacement resolution models `read_bytes` failures
with an `Option`-valued byte function. -/

/-- Embeds `read_bytes(addr, len)` against a memory where all reads succeed. -/
def readBytesT (mem : Nat → Nat) (addr len : Nat) : List Nat :=
  (List.range len).map fun i => mem (addr + i)

/-- Embeds `read_bytes(addr, len)` against fallible byte memory: fails if any
byte in the range is unreadable. -/
def readBytesOpt (mem : Nat → Option Nat) (addr len : Nat) : Option (List Nat) :=
  (List.range len).mapM fun i => mem (addr + i)

/-- The inner loop of `find_matches_with_wildcards` (mod.rs lines
1506-1513): window at `i` matches when every concrete pattern byte
equals the buffer byte (wildcards always match). -/
def windowOk (buf : List Nat) (i : Nat) (pat : List (Option Nat)) : Bool :=
  (List.range pat.length).all fun j =>
    match pat.get? j with
    | some (some v) => buf.get? (i + j) == some v
    | _ => true

/-- Embeds `OffsetSearcher::find_matches_with_wildcards` (mod.rs lines
1493-1518): empty pattern or pattern longer than the buffer yields no
matches; otherwise every `i` in `0..=buf.len - pat.len` whose window
matches contributes `base_addr + i`. -/
def findMatchesWithWildcards (buf : List Nat) (baseAddr : Nat)
    (pat : List (Option Nat)) : List Nat :=
  if pat.isEmpty || decide (buf.length < pat.length) then []
  else
    (List.range (buf.length - pat.length + 1)).filterMap fun i =>
      if windowOk buf i pat then some (baseAddr + i) else none

/-- Sorted insert, the building block of `sortNat`. -/
def insertSorted (x : Nat) : List Nat → List Nat
  | [] => [x]
  | y :: ys => if x ≤ y then x :: y :: ys else y :: insertSorted x ys

/-- Embeds `Vec::sort_unstable` on `Vec<u64>`.  Insertion sort produces the
same list: on natural numbers any sorting algorithm yields the unique
sorted permutation, so instability is unobservable. -/
def sortNat (l : List Nat) : List Nat :=
  l.foldr insertSorted []

/-- Embeds `Vec::dedup`: removes consecutive repeated elements. -/
def dedupAdj : List Nat → List Nat
  | [] => []
  | [a] => [a]
  | a :: b :: rest =>
    if a = b then dedupAdj (b :: rest) else a :: dedupAdj (b :: rest)

/-- The `while scanned < CODE_SCAN_LIMIT` loop of
`OffsetSearcher::scan_code_for_pattern` (mod.rs lines 1444-1486),
specialised to memories where every read succeeds (so the `Err` arms
are never taken).  Arguments after the pattern: fuel, `remaining`
(= limit - scanned), `offset`, `tail`, accumulated `results`.  Each
iteration consumes `min remaining chunkSize` bytes; `fuel` is a bound
on the number of iterations (the caller passes `remaining` itself,
which suffices whenever the chunk size is positive - for a zero chunk
size the source loop does not terminate). -/
def scanLoop (mem : Nat → Nat) (chunkSize : Nat) (pat : List (Option Nat))
    (base : Nat) : Nat → Nat → Nat → List Nat → List Nat → List Nat
  | 0, _, _, _, acc => acc
  | fuel + 1, remaining, offset, tail, acc =>
    let rs := min remaining chunkSize
    if rs = 0 then acc
    else
      let addr := base + offset
      let chunk := readBytesT mem addr rs
      let data := tail ++ chunk
      let dataBase := addr - tail.length
      let acc2 := acc ++ findMatchesWithWildcards data dataBase pat
      let tail2 :=
        if 1 < pat.length then
          let keep := pat.length - 1
          if keep ≤ data.length then data.drop (data.length - keep) else data
        else []
      scanLoop mem chunkSize pat base fuel (remaining - rs) (offset + rs) tail2 acc2

/-- Embeds `OffsetSearcher::scan_code_for_pattern` (mod.rs lines 1437-1491)
with the chunk size and the scan ceiling as parameters (the source's
`CODE_SCAN_CHUNK_SIZE` / `CODE_SCAN_LIMIT` constants are fixed but the
scan is chunk-size-agnostic): run the chunked loop from `base_address`,
then `sort_unstable` and `dedup` the collected match addresses. -/
def scanCodeForPattern (mem : Nat → Nat) (base chunkSize limit : Nat)
    (pat : List (Option Nat)) : List Nat :=
  dedupAdj (sortNat (scanLoop mem chunkSize pat base limit limit 0 [] []))

/-- Matching the pattern over the whole scanned region in one pass:
`find_matches_with_wildcards` applied to the full `limit`-byte buffer. -/
def onePassMatches (mem : Nat → Nat) (base limit : Nat)
    (pat : List (Option Nat)) : List Nat :=
  findMatchesWithWildcards (readBytesT mem base limit) base pat

/-- Pattern match directly against memory at `addr` (specification-side
notion used to relate the chunked and one-pass scans). -/
def memMatch (mem : Nat → Nat) (addr : Nat) (pat : List (Option Nat)) : Bool :=
  (List.range pat.length).all fun j =>
    match pat.get? j with
    | some (some v) => mem (addr + j) == v
    | _ => true

/-- Specification-side notion used to relate the chunked and one-pass
scans: `x` is a match address whose window lies inside the first
`bound` bytes above `base`. -/
def matchesUpTo (mem : Nat → Nat) (base : Nat) (pat : List (Option Nat))
    (bound x : Nat) : Prop :=
  pat ≠ [] ∧ ∃ i, i + pat.length ≤ bound ∧ x = base + i
    ∧ memMatch mem (base + i) pat = true

/-! ## RIP-relative target resolution (mod.rs lines 1388-1435) -/

/-- Embeds `CodeSignature` (crates/reflux-core/src/offset/signature.rs lines
7-17), with the pattern already parsed (`None` = wildcard). -/
structure CodeSignature where
  pattern : List (Option Nat)
  instrOffset : Nat
  dispOffset : Nat
  instrLen : Nat
  deref : Bool
  addend : Int

/-- Embeds `i32::from_le_bytes` on the first four bytes. -/
def i32OfLe (b : List Nat) : Int :=
  let u := b.getD 0 0 + 0x100 * b.getD 1 0 + 0x10000 * b.getD 2 0
    + 0x1000000 * b.getD 3 0
  if u < 2 ^ 31 then (u : Int) else (u : Int) - 2 ^ 32

/-- Embeds `u64::from_le_bytes` on eight bytes. -/
def u64OfLe (b : List Nat) : Nat :=
  b.getD 0 0 + 0x100 * b.getD 1 0 + 0x10000 * b.getD 2 0
    + 0x1000000 * b.getD 3 0 + 0x100000000 * b.getD 4 0
    + 0x10000000000 * b.getD 5 0 + 0x1000000000000 * b.getD 6 0
    + 0x100000000000000 * b.getD 7 0

/-- Embeds `u64::wrapping_add_signed`. -/
def wAddSigned (a : Nat) (d : Int) : Nat :=
  (((a : Int) + d) % (2 ^ 64)).toNat

/-- One iteration of the `for match_addr in matches` loop of
`OffsetSearcher::resolve_signature_targets` (mod.rs lines 1393-1430):
`none` models every `continue` (failed displacement read, failed
dereference read, target below the minimum) as well as a zero target
never being pushed.  `minValid` stands for `MIN_VALID_DATA_ADDRESS`,
a constant whose defining module is not under `src/` (spec section 4.3
step 6: reject any target below it). -/
def resolveOne (mem : Nat → Option Nat) (minValid : Nat)
    (sig : CodeSignature) (matchAddr : Nat) : Option Nat :=
  let instrAddr := matchAddr + sig.instrOffset
  let dispAddr := instrAddr + sig.dispOffset
  match readBytesOpt mem dispAddr 4 with
  | none => none
  | some dispBytes =>
    let disp := i32OfLe dispBytes
    let nextIp := instrAddr + sig.instrLen
    let target0 := wAddSigned nextIp disp
    let derefed : Option Nat :=
      if sig.deref then
        match readBytesOpt mem target0 8 with
        | none => none
        | some qwordBytes => some (u64OfLe qwordBytes)
      else some target0
    match derefed with
    | none => none
    | some t1 =>
      let t2 := if sig.addend ≠ 0 then wAddSigned t1 sig.addend else t1
      if t2 < minValid then none
      else if t2 ≠ 0 then some t2
      else none

/-- The tail of `resolve_signature_targets` (mod.rs lines 1391-1434)
applied to the match list produced by the code scan: resolve each match
site, collect the successes in order, then `sort_unstable` + `dedup`. -/
def resolveTargets (mem : Nat → Option Nat) (minValid : Nat)
    (sig : CodeSignature) (matchList : List Nat) : List Nat :=
  dedupAdj (sortNat (matchList.filterMap (resolveOne mem minValid sig)))

/-- The specification's resolution formula (spec section 4.3 steps 1-5):
`instr_addr = match_addr + instr_offset`, `disp` the i32 read at
`instr_addr + disp_offset`, `target = instr_addr + instr_len +
sign_extend(disp)`, dereferenced as u64 when `deref` is set, then offset
by the signed `addend` - before the minimum-address gate. -/
def resolvedTargetFormula (mem : Nat → Option Nat) (sig : CodeSignature)
    (matchAddr : Nat) : Option Nat := do
  let instrAddr := matchAddr + sig.instrOffset
  let dispBytes ← readBytesOpt mem (instrAddr + sig.dispOffset) 4
  let target := wAddSigned (instrAddr + sig.instrLen) (i32OfLe dispBytes)
  let target ←
    if sig.deref then do
      let qwordBytes ← readBytesOpt mem target 8
      pure (u64OfLe qwordBytes)
    else pure target
  pure (wAddSigned target sig.addend)

/-- Memory returns genuine bytes: every successful read is below 256. -/
def ByteMem (mem : Nat → Option Nat) : Prop :=
  ∀ a v, mem a = some v → v < 256

/-! ## Concrete instances used by the scenario parts of the claims -/

/-- Scenario S4 memory: the bytes `48 8D 0D 10 00 00 00` at addresses
`0x140001000..0x140001006` (offset 0x1000 from base 0x140000000),
everything else unreadable. -/
def memS4 : Nat → Option Nat := fun a =>
  if a < 0x140001000 ∨ 0x140001007 ≤ a then none
  else some ([0x48, 0x8D, 0x0D, 0x10, 0, 0, 0].getD (a - 0x140001000) 0)

/-- Scenario S4 signature: pattern `48 8D 0D ?? ?? ?? ??`,
`instr_offset = 0`, `disp_offset = 3`, `instr_len = 7`, no deref,
zero addend. -/
def sigS4 : CodeSignature where
  pattern := [some 0x48, some 0x8D, some 0x0D, none, none, none, none]
  instrOffset := 0
  dispOffset := 3
  instrLen := 7
  deref := false
  addend := 0

/-- Scenario S5 collection as written in the claim
(`song_list = 0x10A4E000`). -/
def offsetsS5Claimed : OffsetsCollection where
  version := "test"
  songList := 0x10A4E000
  dataMap := 0
  judgeData := 0x10000000
  playData := 0x0FD534B0
  playSettings := 0x0FD53200
  unlockData := 0
  currentSong := 0x100001E4

/-- Scenario S5 collection with `song_list` actually at distance
`0x94E000` from `judge_data` (`0x10000000 + 0x94E000 = 0x1094E000`). -/
def offsetsS5Fixed : OffsetsCollection :=
  { offsetsS5Claimed with songList := 0x1094E000 }

/-- Scenario S5 collection with `play_data` moved to `0x0FD53800`
(distance 0x600 from `play_settings`). -/
def offsetsS5Bad : OffsetsCollection :=
  { offsetsS5Fixed with playData := 0x0FD53800 }

/-- Scenario S6 memory: words `(song_id = 42, difficulty = 2, lamp = 3)`
at offsets 0, 4 and 24 of address 0, all other reads zero. -/
def memS6 : MemI32 := fun a =>
  if a = 0 then some 42 else if a = 4 then some 2
  else if a = 24 then some 3 else some 0

/-- An i32 memory on which every read yields 0. -/
def memZeros : MemI32 := fun _ => some 0

/-- An i32 memory on which every read fails. -/
def memNone : MemI32 := fun _ => none

/-- A small total byte memory for exercising the chunked scan. -/
def memScanDemo : Nat → Nat := fun a =>
  [3, 1, 4, 3, 1, 5, 9, 2].getD a 0

/-- A small two-byte pattern `03 ??` for the chunked scan demo. -/
def patScanDemo : List (Option Nat) := [some 3, none]

end Infst

namespace Infst

/-! # Theorems

Helper lemmas first, then one theorem per claim (with a witness or
counterexample where required). -/

/-! ## List helpers for the scanner embedding -/

lemma mem_insertSorted (x a : Nat) (l : List Nat) :
    a ∈ insertSorted x l ↔ a = x ∨ a ∈ l := by
  induction l with
  | nil => simp [insertSorted]
  | cons y ys ih =>
    by_cases h : x ≤ y
    · simp [insertSorted, h]
    · simp only [insertSorted, if_neg h, List.mem_cons, ih]
      tauto

lemma mem_sortNat (a : Nat) (l : List Nat) : a ∈ sortNat l ↔ a ∈ l := by
  induction l with
  | nil => simp [sortNat]
  | cons y ys ih =>
    simp only [sortNat, List.foldr_cons] at ih ⊢
    rw [mem_insertSorted, ih, List.mem_cons]

lemma mem_dedupAdj (a : Nat) (l : List Nat) : a ∈ dedupAdj l ↔ a ∈ l := by
  induction l with
  | nil => simp [dedupAdj]
  | cons y ys ih =>
    cases ys with
    | nil => simp [dedupAdj]
    | cons z zs =>
      by_cases h : y = z
      · rw [show dedupAdj (y :: z :: zs) = dedupAdj (z :: zs) by
          simp [dedupAdj, h]]
        rw [ih]
        simp [h]
      · rw [show dedupAdj (y :: z :: zs) = y :: dedupAdj (z :: zs) by
          simp [dedupAdj, h]]
        simp only [List.mem_cons] at ih ⊢
        rw [ih]

/-! ## C4 - game-state detector step function and trace -/

/-- C4: the detector's step maps each tick's inputs and held previous
state to: `Playing` when both judge markers are non-zero; otherwise
`SongSelect` when the previous state was `SongSelect`; otherwise
`SongSelect` when `song_select_marker == 1`; otherwise `ResultScreen`;
and from `Unknown` the marker sequence (0,0,1), (5,5,0), (0,0,0),
(0,0,1) yields SongSelect, Playing, ResultScreen, SongSelect. -/
theorem c4_state_detector_step :
    (∀ (prev : GameState) (m54 m55 ssm : Int),
      (detect prev m54 m55 ssm).1 =
        (if m54 ≠ 0 ∧ m55 ≠ 0 then GameState.Playing
         else if prev = GameState.SongSelect then GameState.SongSelect
         else if ssm = 1 then GameState.SongSelect
         else GameState.ResultScreen))
    ∧ detectTrace GameState.Unknown [(0, 0, 1), (5, 5, 0), (0, 0, 0), (0, 0, 1)]
      = [GameState.SongSelect, GameState.Playing, GameState.ResultScreen,
         GameState.SongSelect] := by
  constructor
  · intro prev m54 m55 ssm
    by_cases h1 : m54 ≠ 0 ∧ m55 ≠ 0
    · simp [detect, h1]
    · by_cases h2 : prev = GameState.SongSelect
      · simp [detect, h1, h2]
      · by_cases h3 : ssm = 1 <;> simp [detect, h1, h2, h3]
  · decide

/-! ## C5 - detector behaviour after reset -/

lemma detectTrace_zeros_from_result (n : Nat) :
    detectTrace GameState.ResultScreen (List.replicate n (0, 0, 0)) =
      List.replicate n GameState.ResultScreen := by
  induction n with
  | zero => rfl
  | succ k ih =>
    rw [List.replicate_succ, List.replicate_succ]
    simpa [detectTrace, detect] using ih

/-- C5: after `reset` (which sets `last_state` to `Unknown`), feeding
(0,0,0) on every tick returns `ResultScreen` on every tick - hence the
detector never returns `Unknown` - and feeding both judge markers
non-zero returns `Playing` on the first tick. -/
theorem c5_reset_behaviour :
    (∀ (n : Nat) (g : GameState),
      g ∈ detectTrace GameState.Unknown (List.replicate n (0, 0, 0)) →
        g = GameState.ResultScreen)
    ∧ (∀ m54 m55 ssm : Int, m54 ≠ 0 → m55 ≠ 0 →
        (detect GameState.Unknown m54 m55 ssm).1 = GameState.Playing) := by
  constructor
  · intro n g hg
    cases n with
    | zero => simp [detectTrace] at hg
    | succ k =>
      rw [List.replicate_succ] at hg
      rw [show detectTrace GameState.Unknown ((0, 0, 0) ::
            List.replicate k (0, 0, 0)) =
          GameState.ResultScreen ::
            detectTrace GameState.ResultScreen (List.replicate k (0, 0, 0)) by
        simp [detectTrace, detect]] at hg
      rw [detectTrace_zeros_from_result] at hg
      rcases List.mem_cons.mp hg with h | h
      · exact h
      · exact List.eq_of_mem_replicate h
  · intro m54 m55 ssm h54 h55
    simp [detect, h54, h55]

/-- Witness for C5 at concrete inputs. -/
theorem c5_witness :
    GameState.ResultScreen = GameState.ResultScreen
    ∧ (detect GameState.Unknown 5 5 0).1 = GameState.Playing :=
  ⟨c5_reset_behaviour.1 2 GameState.ResultScreen (by decide),
   c5_reset_behaviour.2 5 5 0 (by decide) (by decide)⟩

/-! ## C9 - emitted play record: EX score, miss count, PFC upgrade -/

/-- C9: for every emitted play record, `ex_score = 2 * pgreat + great`
and `miss_count = bad + poor`, and the lamp upgrade at emission turns
`FullCombo` into `Pfc` exactly when `good = bad = poor = 0`, leaving
every other lamp unchanged; the S2 judge (pgreat = 1000, rest 0) with
memory lamp `FullCombo` is emitted with lamp `Pfc`. -/
theorem c9_emitted_play_record :
    (∀ (j : Judge) (lampMem : Lamp) (tn g : Nat) (da : Bool),
      (emitPlayData j lampMem tn g da).exScore = 2 * j.pgreat + j.great
      ∧ (emitPlayData j lampMem tn g da).missCount = j.bad + j.poor
      ∧ (lampMem = Lamp.FullCombo →
          ((emitPlayData j lampMem tn g da).lamp = Lamp.Pfc ↔
            (j.good = 0 ∧ j.bad = 0 ∧ j.poor = 0)))
      ∧ (lampMem ≠ Lamp.FullCombo →
          (emitPlayData j lampMem tn g da).lamp = lampMem))
    ∧ (emitPlayData ⟨PlayType.P1, 1000, 0, 0, 0, 0, 0, 0, 0, false⟩
        Lamp.FullCombo 1000 0 true).lamp = Lamp.Pfc := by
  constructor
  · intro j lampMem tn g da
    refine ⟨?_, ?_, ?_, ?_⟩
    · unfold emitPlayData upgradeLampIfPfc Judge.exScore
      split <;> · show j.pgreat * 2 + j.great = 2 * j.pgreat + j.great
                  omega
    · unfold emitPlayData upgradeLampIfPfc PlayData.missCount Judge.missCountJ
      split <;> rfl
    · intro hl
      subst hl
      unfold emitPlayData upgradeLampIfPfc Judge.isPfc
      by_cases hp : j.good = 0 ∧ j.bad = 0 ∧ j.poor = 0
      · rw [if_pos (by simp [hp.1, hp.2.1, hp.2.2])]
        simpa using hp
      · rw [if_neg (by simpa using hp)]
        simpa using hp
    · intro hl
      unfold emitPlayData upgradeLampIfPfc
      rw [if_neg (by simp [hl])]
  · decide

/-- Witness for C9 at concrete inputs (both lamp hypotheses exercised). -/
theorem c9_witness :
    ((emitPlayData ⟨PlayType.P1, 900, 50, 3, 1, 2, 0, 0, 0, false⟩
        Lamp.FullCombo 1000 0 true).lamp = Lamp.Pfc ↔
      ((3 : Nat) = 0 ∧ (1 : Nat) = 0 ∧ (2 : Nat) = 0))
    ∧ (emitPlayData ⟨PlayType.P1, 900, 50, 3, 1, 2, 0, 0, 0, false⟩
        Lamp.HardClear 1000 0 true).lamp = Lamp.HardClear :=
  ⟨(c9_emitted_play_record.1 ⟨PlayType.P1, 900, 50, 3, 1, 2, 0, 0, 0, false⟩
      Lamp.FullCombo 1000 0 true).2.2.1 rfl,
   (c9_emitted_play_record.1 ⟨PlayType.P1, 900, 50, 3, 1, 2, 0, 0, 0, false⟩
      Lamp.HardClear 1000 0 true).2.2.2 (by decide)⟩

/-! ## C2 - the infst PlayData validator -/

/-- C2 counterexample: at an address where the three words read as
`(song_id, difficulty, lamp) = (0, 0, 0)`, the infst PlayData validator
(`validate_play_data_address`, validation/play.rs lines 54-72) returns
`false` - the claim states such an address is accepted. -/
theorem c2_counterexample : validatePlayDataAddress memZeros 0 = false := by
  decide

/-- C2 (amended): the infst PlayData validator accepts an address iff
the triple read there is domain-valid - `song_id ∈ [1000, 90000]`,
`difficulty ∈ [0, 9]`, `lamp ∈ [0, 7]`; the all-zero triple is
explicitly rejected (so the S6 address reading (42, 2, 3) is rejected,
and the address reading (0, 0, 0) is rejected as well). -/
theorem c2_play_data_validator :
    (∀ (mem : MemI32) (addr : Nat),
      validatePlayDataAddress mem addr = true ↔
        (1000 ≤ readOr mem (addr + 0) ∧ readOr mem (addr + 0) ≤ 90000
          ∧ 0 ≤ readOr mem (addr + 4) ∧ readOr mem (addr + 4) ≤ 9
          ∧ 0 ≤ readOr mem (addr + 24) ∧ readOr mem (addr + 24) ≤ 7))
    ∧ validatePlayDataAddress memS6 0 = false
    ∧ validatePlayDataAddress memZeros 0 = false := by
  refine ⟨?_, by decide, by decide⟩
  intro mem addr
  simp only [validatePlayDataAddress, containsI, MIN_SONG_ID, MAX_SONG_ID]
  split
  case isTrue h =>
    simp only [Bool.and_eq_true, beq_iff_eq] at h
    simp only [Bool.false_eq_true, false_iff]
    intro hcontra
    obtain ⟨h1, -⟩ := hcontra
    omega
  case isFalse h =>
    simp [Bool.and_eq_true, decide_eq_true_eq, and_assoc]

/-! ## C8 - the relative-distance gate -/

/-- C8 counterexample: the collection written in the claim
(`song_list = 0x10A4E000`) does not pass the distance gate:
`song_list - judge_data = 0xA4E000`, which is `0x100000` away from the
expected `0x94E000`, far outside the `±0x10000` tolerance. -/
theorem c8_counterexample : distanceGate offsetsS5Claimed = false := by
  decide

/-- C8 (amended): whenever `validate_signature_offsets` returns true,
each of the four pairwise distances lies within its declared tolerance
of its expected value, and a collection with a distance out of range is
rejected; with `song_list = 0x1094E000` (exactly `judge + 0x94E000`) the
S5 collection passes the distance gate, and changing `play_data` to
`0x0FD53800` makes it fail. -/
theorem c8_distance_gate :
    (∀ (structuralOk : Bool) (o : OffsetsCollection),
      validateSignatureOffsets structuralOk o = true →
        withinRange (wsub64 o.judgeData o.playSettings)
            JUDGE_TO_PLAY_SETTINGS PLAY_SETTINGS_SEARCH_RANGE = true
        ∧ withinRange (wsub64 o.songList o.judgeData)
            JUDGE_TO_SONG_LIST JUDGE_DATA_SEARCH_RANGE = true
        ∧ withinRange (wsub64 o.playData o.playSettings)
            PLAY_SETTINGS_TO_PLAY_DATA PLAY_DATA_SEARCH_RANGE = true
        ∧ withinRange (wsub64 o.currentSong o.judgeData)
            JUDGE_TO_CURRENT_SONG CURRENT_SONG_SEARCH_RANGE = true)
    ∧ distanceGate offsetsS5Fixed = true
    ∧ distanceGate offsetsS5Bad = false := by
  refine ⟨?_, by decide, by decide⟩
  intro structuralOk o h
  simp only [validateSignatureOffsets] at h
  repeat' split at h
  all_goals try simp at h
  simp only [distanceGate, Bool.and_eq_true] at h
  exact ⟨h.1.1.1, h.1.1.2, h.1.2, h.2⟩

/-- Witness for C8: the fixed S5 collection passes the whole validation
(with the memory-dependent part satisfied), so all four distances are in
tolerance. -/
theorem c8_witness :
    withinRange (wsub64 offsetsS5Fixed.judgeData offsetsS5Fixed.playSettings)
        JUDGE_TO_PLAY_SETTINGS PLAY_SETTINGS_SEARCH_RANGE = true
    ∧ withinRange (wsub64 offsetsS5Fixed.songList offsetsS5Fixed.judgeData)
        JUDGE_TO_SONG_LIST JUDGE_DATA_SEARCH_RANGE = true
    ∧ withinRange (wsub64 offsetsS5Fixed.playData offsetsS5Fixed.playSettings)
        PLAY_SETTINGS_TO_PLAY_DATA PLAY_DATA_SEARCH_RANGE = true
    ∧ withinRange (wsub64 offsetsS5Fixed.currentSong offsetsS5Fixed.judgeData)
        JUDGE_TO_CURRENT_SONG CURRENT_SONG_SEARCH_RANGE = true :=
  c8_distance_gate.1 true offsetsS5Fixed (by decide)

/-! ## C3 - ScoreData indexing and the ten-valued Difficulty enum -/

/-- C3: the per-difficulty arrays have length 9 while `Difficulty` has
ten values; `get_lamp`, `get_score`, `set_lamp` and `set_score` index
past the end (modelled as `none`, the panic) exactly for
`Difficulty::DpL` (discriminant 9), and stay in bounds for the nine
other difficulties. -/
theorem c3_score_data_index_bounds :
    (∀ (s : ScoreData) (l : Lamp) (v : Nat),
      s.getLamp Difficulty.DpL = none ∧ s.getScore Difficulty.DpL = none
      ∧ s.setLamp Difficulty.DpL l = none ∧ s.setScore Difficulty.DpL v = none)
    ∧ (∀ (s : ScoreData) (d : Difficulty) (l : Lamp) (v : Nat),
        d ≠ Difficulty.DpL →
        (s.getLamp d).isSome ∧ (s.getScore d).isSome
        ∧ (s.setLamp d l).isSome ∧ (s.setScore d v).isSome) := by
  constructor
  · intro s l v
    refine ⟨?_, ?_, ?_, ?_⟩
    · rw [ScoreData.getLamp, List.get?_eq_none, s.lampLen]
      decide
    · rw [ScoreData.getScore, List.get?_eq_none, s.scoreLen]
      decide
    · rw [ScoreData.setLamp, dif_neg]
      rw [s.lampLen]
      simp [difficultyIndex]
    · rw [ScoreData.setScore, dif_neg]
      rw [s.scoreLen]
      simp [difficultyIndex]
  · intro s d l v hd
    have hidx : difficultyIndex d < 9 := by
      cases d <;> first
        | exact absurd rfl hd
        | simp [difficultyIndex]
    refine ⟨?_, ?_, ?_, ?_⟩
    · simp [ScoreData.getLamp, List.get?_eq_getElem?, s.lampLen, hidx]
    · simp [ScoreData.getScore, List.get?_eq_getElem?, s.scoreLen, hidx]
    · rw [ScoreData.setLamp, dif_pos (by rw [s.lampLen]; exact hidx)]
      rfl
    · rw [ScoreData.setScore, dif_pos (by rw [s.scoreLen]; exact hidx)]
      rfl

/-- Witness for C3 at the default `ScoreData` and a concrete in-bounds
difficulty. -/
theorem c3_witness :
    ((ScoreData.mkNew "1000").getLamp Difficulty.SpA).isSome
    ∧ ((ScoreData.mkNew "1000").getScore Difficulty.SpA).isSome
    ∧ ((ScoreData.mkNew "1000").setLamp Difficulty.SpA Lamp.Clear).isSome
    ∧ ((ScoreData.mkNew "1000").setScore Difficulty.SpA 1234).isSome :=
  c3_score_data_index_bounds.2 (ScoreData.mkNew "1000") Difficulty.SpA
    Lamp.Clear 1234 (by decide)

/-! ## C1 - the grade table -/

/-- Cross-multiplication for the grade thresholds: for positive
`totalNotes`, comparison of the computed ratio against `k/9` is exactly
the integer comparison `k * (2 * totalNotes) ≤ 9 * exScore`. -/
lemma ratioThreshold (k exScore totalNotes : Nat) (hn : totalNotes ≠ 0) :
    ((k : ℚ) / 9 ≤ (exScore : ℚ) / ((totalNotes * 2 : Nat) : ℚ)) ↔
      k * (2 * totalNotes) ≤ 9 * exScore := by
  have h2 : (0 : ℚ) < ((totalNotes * 2 : Nat) : ℚ) := by
    have : 0 < totalNotes * 2 := by omega
    exact_mod_cast this
  rw [div_le_div_iff₀ (by norm_num) h2]
  constructor
  · intro h
    have h' : ((k * (2 * totalNotes) : Nat) : ℚ) ≤ ((9 * exScore : Nat) : ℚ) := by
      push_cast at h ⊢
      ring_nf at h ⊢
      linarith
    exact_mod_cast h'
  · intro h
    have h' : ((k * (2 * totalNotes) : Nat) : ℚ) ≤ ((9 * exScore : Nat) : ℚ) := by
      exact_mod_cast h
    push_cast at h' ⊢
    ring_nf at h' ⊢
    linarith

/-- C1 counterexample: `calculate_grade(1555, 1000)` is `Grade::A`, not
`Grade::Aa` as the claim states - the ratio 1555/2000 = 0.7775 is below
7/9 = 0.777... -/
theorem c1_counterexample :
    calculateGrade 1555 1000 = Grade.A ∧ calculateGrade 1555 1000 ≠ Grade.Aa := by
  have h : calculateGrade 1555 1000 = Grade.A := by
    unfold calculateGrade gradeFromScoreRat
    norm_num
  exact ⟨h, by rw [h]; decide⟩

/-- C1 (amended): for every `ex_score` and `total_notes` the computed
grade equals the grade determined by the precise ratio
`ex_score / (2 * total_notes)` with inclusive lower bounds at `k/9`
(k = 2..8) and `Grade::F` when `total_notes` is 0; in particular
`calculate_grade(1778, 1000) = Grade::Aaa`,
`calculate_grade(1555, 1000) = Grade::A` (0.7775 < 7/9), and
`calculate_grade(0, 1000) = Grade::F`. -/
theorem c1_grade_table :
    (∀ exScore totalNotes : Nat,
      calculateGrade exScore totalNotes = gradePreciseSpec exScore totalNotes)
    ∧ calculateGrade 1778 1000 = Grade.Aaa
    ∧ calculateGrade 1555 1000 = Grade.A
    ∧ calculateGrade 0 1000 = Grade.F := by
  have hmain : ∀ exScore totalNotes : Nat,
      calculateGrade exScore totalNotes = gradePreciseSpec exScore totalNotes := by
    intro exScore totalNotes
    by_cases hn : totalNotes = 0
    · simp [calculateGrade, gradePreciseSpec, hn]
    · have e8 := ratioThreshold 8 exScore totalNotes hn
      have e7 := ratioThreshold 7 exScore totalNotes hn
      have e6 := ratioThreshold 6 exScore totalNotes hn
      have e5 := ratioThreshold 5 exScore totalNotes hn
      have e4 := ratioThreshold 4 exScore totalNotes hn
      have e3 := ratioThreshold 3 exScore totalNotes hn
      have e2 := ratioThreshold 2 exScore totalNotes hn
      simp only [Nat.cast_ofNat] at e8 e7 e6 e5 e4 e3 e2
      simp only [calculateGrade, gradeFromScoreRat, gradePreciseSpec, hn,
        if_false, ge_iff_le, e8, e7, e6, e5, e4, e3, e2]
  exact ⟨hmain, by rw [hmain]; decide, by rw [hmain]; decide, by rw [hmain]; decide⟩

/-! ## C10 - every validator is total and rejects on read failure -/

/-- C10: each structure validator is a total function of the address
and memory contents (it is a Lean function, so it cannot panic or
propagate an error), and whenever a memory read it issues fails it
returns `false` (or `None`).  For `validate_current_song_address` the
third-word read is issued only outside the accept-on-zeros path, so its
failure clause carries that proviso. -/
theorem c10_validators_total :
    ∀ (mem : MemI32) (addr : Nat),
      ((mem addr = none ∨ mem (addr + 4) = none ∨ mem (addr + 8) = none
          ∨ mem (addr + 12) = none ∨ mem (addr + 16) = none
          ∨ mem (wsub64 addr SONG_SELECT_MARKER) = none) →
        validatePlaySettingsAt mem addr = none)
      ∧ ((mem addr = none ∨ mem (addr + 4) = none
          ∨ mem (addr + 24) = none) →
        validatePlayDataAddress mem addr = false)
      ∧ ((mem addr = none ∨ mem (addr + 4) = none ∨ mem (addr + 8) = none
          ∨ mem (addr + 12) = none) →
        refluxValidatePlayData mem addr = false)
      ∧ ((mem addr = none ∨ mem (addr + 4) = none) →
        validateCurrentSongAddress mem addr = false)
      ∧ (mem (addr + 8) = none →
        ¬(readOr mem addr = 0 ∧ readOr mem (addr + 4) = 0) →
        validateCurrentSongAddress mem addr = false)
      ∧ ((mem (addr + STATE_MARKER_1) = none
          ∨ mem (addr + STATE_MARKER_2) = none) →
        validateJudgeDataCandidate mem addr = false) := by
  intro mem addr
  refine ⟨?_, ?_, ?_, ?_, ?_, ?_⟩
  · intro h
    rcases hm1 : mem addr with _ | v1
    · simp [validatePlaySettingsAt, hm1]
    rcases hm2 : mem (addr + 4) with _ | v2
    · simp [validatePlaySettingsAt, hm1, hm2]
    rcases hm3 : mem (addr + 8) with _ | v3
    · simp [validatePlaySettingsAt, hm1, hm2, hm3]
    rcases hm4 : mem (addr + 12) with _ | v4
    · simp [validatePlaySettingsAt, hm1, hm2, hm3, hm4]
    rcases hm5 : mem (addr + 16) with _ | v5
    · simp [validatePlaySettingsAt, hm1, hm2, hm3, hm4, hm5]
    have hm6 : mem (wsub64 addr SONG_SELECT_MARKER) = none := by
      rcases h with h | h | h | h | h | h
      · rw [h] at hm1; cases hm1
      · rw [h] at hm2; cases hm2
      · rw [h] at hm3; cases hm3
      · rw [h] at hm4; cases hm4
      · rw [h] at hm5; cases hm5
      · exact h
    simp [validatePlaySettingsAt, hm1, hm2, hm3, hm4, hm5, hm6]
  · intro h
    have h' : readOr mem addr = -1 ∨ readOr mem (addr + 4) = -1
        ∨ readOr mem (addr + 24) = -1 := by
      rcases h with h | h | h
      · exact Or.inl (by simp [readOr, h])
      · exact Or.inr (Or.inl (by simp [readOr, h]))
      · exact Or.inr (Or.inr (by simp [readOr, h]))
    rcases h' with h' | h' | h' <;>
      simp +decide [validatePlayDataAddress, h', containsI, MIN_SONG_ID,
        MAX_SONG_ID]
  · intro h
    have h' : readOr mem addr = -1 ∨ readOr mem (addr + 4) = -1
        ∨ readOr mem (addr + 8) = -1 ∨ readOr mem (addr + 12) = -1 := by
      rcases h with h | h | h | h
      · exact Or.inl (by simp [readOr, h])
      · exact Or.inr (Or.inl (by simp [readOr, h]))
      · exact Or.inr (Or.inr (Or.inl (by simp [readOr, h])))
      · exact Or.inr (Or.inr (Or.inr (by simp [readOr, h])))
    rcases h' with h' | h' | h' | h' <;>
      simp +decide [refluxValidatePlayData, h', containsI, MIN_SONG_ID,
        MAX_SONG_ID]
  · intro h
    have h' : readOr mem addr = -1 ∨ readOr mem (addr + 4) = -1 := by
      rcases h with h | h
      · exact Or.inl (by simp [readOr, h])
      · exact Or.inr (by simp [readOr, h])
    rcases h' with h' | h' <;>
      simp +decide [validateCurrentSongAddress, h', containsI]
  · intro h8 hnz
    have h8' : readOr mem (addr + 8) = -1 := by simp [readOr, h8]
    have hcond : (readOr mem addr == 0 && readOr mem (addr + 4) == 0) = false := by
      by_cases hs : readOr mem addr = 0
      · by_cases hd : readOr mem (addr + 4) = 0
        · exact absurd ⟨hs, hd⟩ hnz
        · simp [hs, hd]
      · simp [hs]
    simp +decide [validateCurrentSongAddress, hcond, h8', containsI]
  · intro h
    by_cases ha : addr % 4 = 0
    · have h' : readOr mem (addr + STATE_MARKER_1) = -1
          ∨ readOr mem (addr + STATE_MARKER_2) = -1 := by
        rcases h with h | h
        · exact Or.inl (by simp [readOr, h])
        · exact Or.inr (by simp [readOr, h])
      rcases h' with h' | h' <;>
        simp +decide [validateJudgeDataCandidate, ha, h', containsI]
    · simp [validateJudgeDataCandidate, ha]

/-- Witness for C10: on the memory where every read fails, every
validator rejects. -/
theorem c10_witness :
    validatePlaySettingsAt memNone 0 = none
    ∧ validatePlayDataAddress memNone 0 = false
    ∧ refluxValidatePlayData memNone 0 = false
    ∧ validateCurrentSongAddress memNone 0 = false
    ∧ validateCurrentSongAddress memNone 0 = false
    ∧ validateJudgeDataCandidate memNone 0 = false :=
  have h := c10_validators_total memNone 0
  ⟨h.1 (Or.inl rfl), h.2.1 (Or.inl rfl), h.2.2.1 (Or.inl rfl),
   h.2.2.2.1 (Or.inl rfl),
   h.2.2.2.2.1 rfl (by simp [readOr, memNone]),
   h.2.2.2.2.2 (Or.inl rfl)⟩


/-! ## C6 - RIP-relative displacement resolution -/

lemma mapM_option_mem {α β : Type} (f : α → Option β) :
    ∀ (l : List α) (r : List β), l.mapM f = some r →
      ∀ b ∈ r, ∃ a ∈ l, f a = some b := by
  intro l
  induction l with
  | nil =>
    intro r h b hb
    simp only [List.mapM_nil, Option.pure_def, Option.some.injEq] at h
    subst h
    simp at hb
  | cons x xs ih =>
    intro r h b hb
    rw [List.mapM_cons] at h
    cases hfx : f x with
    | none => rw [hfx] at h; simp at h
    | some y =>
      rw [hfx] at h
      cases hxs : xs.mapM f with
      | none => rw [hxs] at h; simp at h
      | some ys =>
        rw [hxs] at h
        simp at h
        subst h
        rcases List.mem_cons.mp hb with rfl | hb2
        · exact ⟨x, by simp, hfx⟩
        · obtain ⟨a, ha, hfa⟩ := ih ys hxs b hb2
          exact ⟨a, by simp [ha], hfa⟩

lemma getD_lt_of_forall (b : List Nat) (i : Nat)
    (hx : ∀ x ∈ b, x < 256) : b.getD i 0 < 256 := by
  induction b generalizing i with
  | nil => simp [List.getD]
  | cons x xs ih =>
    cases i with
    | zero => simpa using hx x (by simp)
    | succ j =>
      simp only [List.getD_cons_succ]
      exact ih j (fun y hy => hx y (by simp [hy]))

lemma u64OfLe_lt (b : List Nat) (hx : ∀ x ∈ b, x < 256) :
    u64OfLe b < 2 ^ 64 := by
  have h0 := getD_lt_of_forall b 0 hx
  have h1 := getD_lt_of_forall b 1 hx
  have h2 := getD_lt_of_forall b 2 hx
  have h3 := getD_lt_of_forall b 3 hx
  have h4 := getD_lt_of_forall b 4 hx
  have h5 := getD_lt_of_forall b 5 hx
  have h6 := getD_lt_of_forall b 6 hx
  have h7 := getD_lt_of_forall b 7 hx
  unfold u64OfLe
  omega

lemma wAddSigned_lt (a : Nat) (d : Int) : wAddSigned a d < 2 ^ 64 := by
  unfold wAddSigned
  have h1 : 0 ≤ ((a : Int) + d) % (2 ^ 64) := Int.emod_nonneg _ (by norm_num)
  have h2 : ((a : Int) + d) % (2 ^ 64) < 2 ^ 64 :=
    Int.emod_lt_of_pos _ (by norm_num)
  omega

lemma wAddSigned_zero (a : Nat) (h : a < 2 ^ 64) : wAddSigned a 0 = a := by
  unfold wAddSigned
  rw [add_zero, Int.emod_eq_of_lt (by positivity) (by exact_mod_cast h)]
  simp

/-- C6: at each signature match site the resolved data address is
exactly the specification formula - `instr_addr + instr_len +
sign_extend(disp)` at `instr_addr = match_addr + instr_offset` with
`disp` the i32 at `instr_addr + disp_offset`, dereferenced as u64 when
`deref` is set and offset by the signed addend - gated by discarding
results below the minimum valid data address (and zero); the S4 buffer
(`48 8D 0D 10 00 00 00` at `0x140001000` inside base `0x140000000`,
`instr_offset = 0`, `disp_offset = 3`, `instr_len = 7`) resolves to
`0x140001017`. -/
theorem c6_signature_resolution :
    (∀ (mem : Nat → Option Nat) (minValid : Nat) (sig : CodeSignature)
      (matchAddr : Nat), ByteMem mem →
      resolveOne mem minValid sig matchAddr =
        (resolvedTargetFormula mem sig matchAddr).bind
          (fun t => if t < minValid then none
            else if t ≠ 0 then some t else none))
    ∧ resolveTargets memS4 0x140000000 sigS4 [0x140001000] = [0x140001017] := by
  constructor
  · intro mem minValid sig matchAddr hbm
    simp only [resolveOne, resolvedTargetFormula]
    cases hdb : readBytesOpt mem
        (matchAddr + sig.instrOffset + sig.dispOffset) 4 with
    | none => simp [hdb]
    | some db =>
      simp only [hdb, Option.bind_some]
      by_cases hd : sig.deref
      · cases hq : readBytesOpt mem
            (wAddSigned (matchAddr + sig.instrOffset + sig.instrLen)
              (i32OfLe db)) 8 with
        | none => simp [hd, hq]
        | some qb =>
          have hqb : u64OfLe qb < 2 ^ 64 := by
            refine u64OfLe_lt qb (fun x hx => ?_)
            obtain ⟨i, -, hfi⟩ := mapM_option_mem _ _ _ hq x hx
            exact hbm _ _ hfi
          by_cases ha : sig.addend = 0
          · have hz := wAddSigned_zero _ hqb
            simp [hd, hq, ha, hz]
          · simp [hd, hq, ha]
      · by_cases ha : sig.addend = 0
        · have hz := wAddSigned_zero _
            (wAddSigned_lt (matchAddr + sig.instrOffset + sig.instrLen)
              (i32OfLe db))
          simp [hd, ha, hz]
        · simp [hd, ha]
  · decide

/-- Embeds `memS4` returns genuine bytes. -/
lemma byteMem_memS4 : ByteMem memS4 := by
  intro a v h
  simp only [memS4] at h
  split at h
  · cases h
  · have hv : ([0x48, 0x8D, 0x0D, 0x10, 0, 0, 0].getD (a - 0x140001000) 0) = v :=
      Option.some.inj h
    rw [← hv]
    exact getD_lt_of_forall _ _ (by decide)

/-- Witness for C6: the general resolution equation applied at the S4
memory, signature and match site. -/
theorem c6_witness :
    resolveOne memS4 0x140000000 sigS4 0x140001000 =
      (resolvedTargetFormula memS4 sigS4 0x140001000).bind
        (fun t => if t < 0x140000000 then none
          else if t ≠ 0 then some t else none) :=
  c6_signature_resolution.1 memS4 0x140000000 sigS4 0x140001000 byteMem_memS4


/-! ## C7 - chunked code scan is equivalent to a one-pass scan -/

lemma readBytesT_length (mem : Nat → Nat) (a n : Nat) :
    (readBytesT mem a n).length = n := by
  simp [readBytesT]

lemma readBytesT_append (mem : Nat → Nat) (a m n : Nat) :
    readBytesT mem a (m + n) = readBytesT mem a m ++ readBytesT mem (a + m) n := by
  simp only [readBytesT, List.range_add, List.map_append, List.map_map]
  congr 1
  refine List.map_congr_left (fun i _ => ?_)
  simp [Function.comp, Nat.add_assoc]

lemma readBytesT_drop (mem : Nat → Nat) (a n j : Nat) :
    (readBytesT mem a n).drop j = readBytesT mem (a + j) (n - j) := by
  by_cases hj : j ≤ n
  · have hsplit : readBytesT mem a n =
        readBytesT mem a j ++ readBytesT mem (a + j) (n - j) := by
      rw [← readBytesT_append]
      congr 1
      omega
    rw [hsplit, List.drop_left' (readBytesT_length mem a j)]
  · rw [List.drop_eq_nil_of_le (by rw [readBytesT_length]; omega)]
    have hz : n - j = 0 := by omega
    rw [hz]
    rfl

lemma readBytesT_get (mem : Nat → Nat) (a n i : Nat) (h : i < n) :
    (readBytesT mem a n).get? i = some (mem (a + i)) := by
  simp [readBytesT, List.get?_eq_getElem?, List.getElem?_map,
    List.getElem?_range, h]

lemma windowOk_slice (mem : Nat → Nat) (s n i : Nat) (pat : List (Option Nat))
    (hin : i + pat.length ≤ n) :
    windowOk (readBytesT mem s n) i pat = memMatch mem (s + i) pat := by
  rw [Bool.eq_iff_iff]
  unfold windowOk memMatch
  rw [List.all_eq_true, List.all_eq_true]
  constructor
  · intro h j hj
    have hj2 := List.mem_range.mp hj
    have hv := h j hj
    cases hpj : pat.get? j with
    | none => simp [hpj]
    | some ob =>
      cases ob with
      | none => simp [hpj]
      | some v =>
        rw [hpj] at hv
        rw [readBytesT_get mem s n (i + j) (by omega)] at hv
        simp only [hpj]
        simp only [beq_iff_eq, Option.some.injEq] at hv ⊢
        rw [← Nat.add_assoc] at hv
        exact hv
  · intro h j hj
    have hj2 := List.mem_range.mp hj
    have hv := h j hj
    cases hpj : pat.get? j with
    | none => simp [hpj]
    | some ob =>
      cases ob with
      | none => simp [hpj]
      | some v =>
        rw [hpj] at hv
        simp only [hpj]
        rw [readBytesT_get mem s n (i + j) (by omega)]
        simp only [beq_iff_eq, Option.some.injEq] at hv ⊢
        rw [← Nat.add_assoc]
        exact hv

lemma mem_findMatches_slice (mem : Nat → Nat) (s n : Nat)
    (pat : List (Option Nat)) (a : Nat) :
    a ∈ findMatchesWithWildcards (readBytesT mem s n) s pat ↔
      matchesUpTo mem s pat n a := by
  unfold findMatchesWithWildcards matchesUpTo
  rw [readBytesT_length]
  split
  case isTrue h =>
    simp only [List.not_mem_nil, false_iff]
    rintro ⟨hne, i, hi, -, -⟩
    have h2 : pat = [] ∨ n < pat.length := by simpa using h
    rcases h2 with h1 | h1
    · exact hne h1
    · omega
  case isFalse h =>
    have hne : pat ≠ [] := by
      intro hcontra
      apply h
      subst hcontra
      simp
    have hlen : pat.length ≤ n := by
      by_contra hc
      apply h
      simp only [Bool.or_eq_true, decide_eq_true_eq]
      exact Or.inr (by omega)
    rw [List.mem_filterMap]
    constructor
    · rintro ⟨i, hir, hsome⟩
      have hi := List.mem_range.mp hir
      split at hsome
      case isTrue hw =>
        have ha := Option.some.inj hsome
        refine ⟨hne, i, by omega, ha.symm, ?_⟩
        rw [← windowOk_slice mem s n i pat (by omega)]
        exact hw
      case isFalse hw => cases hsome
    · rintro ⟨-, i, hi, ha, hm⟩
      refine ⟨i, List.mem_range.mpr (by omega), ?_⟩
      have hw : windowOk (readBytesT mem s n) i pat = true := by
        rw [windowOk_slice mem s n i pat hi]
        exact hm
      rw [if_pos hw, ha]

lemma matchesUpTo_union (mem : Nat → Nat) (base : Nat)
    (pat : List (Option Nat)) (offset rs tl x : Nat)
    (htl : tl = if 1 < pat.length then min (pat.length - 1) offset else 0) :
    (matchesUpTo mem base pat offset x
      ∨ matchesUpTo mem (base + offset - tl) pat (tl + rs) x)
      ↔ matchesUpTo mem base pat (offset + rs) x := by
  have htlo : tl ≤ offset := by
    rw [htl]
    split <;> omega
  unfold matchesUpTo
  constructor
  · rintro (⟨hne, i, hi, hx, hm⟩ | ⟨hne, i2, hi2, hx, hm⟩)
    · exact ⟨hne, i, by omega, hx, hm⟩
    · refine ⟨hne, (offset - tl) + i2, by omega, ?_, ?_⟩
      · rw [hx]
        omega
      · have he : base + (offset - tl + i2) = base + offset - tl + i2 := by omega
        rw [he]
        exact hm
  · rintro ⟨hne, i, hi, hx, hm⟩
    by_cases hcase : i + pat.length ≤ offset
    · exact Or.inl ⟨hne, i, hcase, hx, hm⟩
    · right
      have hplen : 1 ≤ pat.length := by
        cases pat with
        | nil => exact absurd rfl hne
        | cons y ys => simp
      have hige : offset - tl ≤ i := by
        by_cases hp : 1 < pat.length
        · rw [if_pos hp] at htl
          omega
        · rw [if_neg hp] at htl
          omega
      refine ⟨hne, i - (offset - tl), by omega, ?_, ?_⟩
      · rw [hx]
        omega
      · have he : base + offset - tl + (i - (offset - tl)) = base + i := by omega
        rw [he]
        exact hm

lemma scanLoop_mem (mem : Nat → Nat) (C : Nat) (pat : List (Option Nat))
    (base : Nat) (hC : 0 < C) :
    ∀ (fuel remaining offset : Nat) (tail acc : List Nat) (a : Nat),
      remaining ≤ fuel →
      tail = readBytesT mem
        (base + offset - (if 1 < pat.length then min (pat.length - 1) offset else 0))
        (if 1 < pat.length then min (pat.length - 1) offset else 0) →
      (∀ x, x ∈ acc ↔ matchesUpTo mem base pat offset x) →
      (a ∈ scanLoop mem C pat base fuel remaining offset tail acc ↔
        matchesUpTo mem base pat (offset + remaining) a) := by
  intro fuel
  induction fuel with
  | zero =>
    intro remaining offset tail acc a hrem htc hacc
    have hr0 : remaining = 0 := by omega
    subst hr0
    simp only [scanLoop]
    rw [hacc a, Nat.add_zero]
  | succ fuel ih =>
    intro remaining offset tail acc a hrem htc hacc
    simp only [scanLoop]
    by_cases hrs : min remaining C = 0
    · rw [if_pos hrs]
      have hr0 : remaining = 0 := by omega
      subst hr0
      rw [hacc a, Nat.add_zero]
    · rw [if_neg hrs]
      set rs := min remaining C with hrsdef
      have hrs1 : 1 ≤ rs := by omega
      have hrsr : rs ≤ remaining := by omega
      have htlen : tail.length =
          (if 1 < pat.length then min (pat.length - 1) offset else 0) := by
        rw [htc, readBytesT_length]
      have htlo : tail.length ≤ offset := by
        rw [htlen]
        split <;> omega
      have haddr : base + offset - tail.length + tail.length = base + offset := by
        omega
      have hdata : tail ++ readBytesT mem (base + offset) rs =
          readBytesT mem (base + offset - tail.length) (tail.length + rs) := by
        rw [readBytesT_append]
        congr 1
        · rw [htlen]
          exact htc
        · rw [haddr]
      refine Iff.trans (ih _ _ _ _ _ ?_ ?_ ?_) ?_
      · omega
      · -- the carried tail is the last bytes before the new offset
        have hdl : (tail ++ readBytesT mem (base + offset) rs).length =
            tail.length + rs := by
          rw [List.length_append, readBytesT_length]
        by_cases hp : 1 < pat.length
        · have htlen2 : tail.length = min (pat.length - 1) offset := by
            rw [htlen, if_pos hp]
          simp only [if_pos hp]
          rw [hdl]
          split
          next hk =>
            rw [hdata, readBytesT_drop]
            congr 1 <;> omega
          next hk =>
            rw [hdata]
            congr 1 <;> omega
        · simp only [if_neg hp]
          have hz : min (pat.length - 1) (offset + rs) = min (pat.length - 1) (offset + rs) := rfl
          simp [readBytesT]
      · -- accumulated results cover all windows up to the new offset
        intro x
        rw [List.mem_append, hacc x, hdata, mem_findMatches_slice]
        exact matchesUpTo_union mem base pat offset rs tail.length x htlen
      · have he : offset + rs + (remaining - rs) = offset + remaining := by omega
        rw [he]

/-- C7: for every wildcard pattern and every memory on which all reads
succeed, the chunked code scan (fixed-size chunks with a trailing
overlap of pattern-length-minus-one bytes, results deduplicated and
sorted) produces exactly the match addresses of a single pass over the
whole scanned region. -/
theorem c7_chunked_scan_equivalence :
    ∀ (mem : Nat → Nat) (base chunkSize limit : Nat)
      (pat : List (Option Nat)) (a : Nat), 0 < chunkSize →
      (a ∈ scanCodeForPattern mem base chunkSize limit pat ↔
        a ∈ onePassMatches mem base limit pat) := by
  intro mem base C limit pat a hC
  unfold scanCodeForPattern onePassMatches
  rw [mem_dedupAdj, mem_sortNat]
  have htc0 : ([] : List Nat) = readBytesT mem
      (base + 0 - (if 1 < pat.length then min (pat.length - 1) 0 else 0))
      (if 1 < pat.length then min (pat.length - 1) 0 else 0) := by
    cases hp : decide (1 < pat.length) <;> simp_all [readBytesT]
  have hacc0 : ∀ x, x ∈ ([] : List Nat) ↔ matchesUpTo mem base pat 0 x := by
    intro x
    simp only [List.not_mem_nil, false_iff]
    rintro ⟨hne, i, hi, -, -⟩
    exact hne (List.length_eq_zero.mp (by omega))
  rw [scanLoop_mem mem C pat base hC limit limit 0 [] [] a le_rfl htc0 hacc0]
  rw [mem_findMatches_slice]
  rw [Nat.zero_add]

/-- Witness for C7: the demo memory scanned with chunk size 3 over the
first 8 bytes agrees with the one-pass scan at address 3. -/
theorem c7_witness :
    3 ∈ scanCodeForPattern memScanDemo 0 3 8 patScanDemo
    ∧ (3 ∈ scanCodeForPattern memScanDemo 0 3 8 patScanDemo ↔
        3 ∈ onePassMatches memScanDemo 0 8 patScanDemo) :=
  ⟨by decide, c7_chunked_scan_equivalence memScanDemo 0 3 8 patScanDemo 3 (by decide)⟩

end Infst
